import Mathlib

/-!
Verification development for the error-normalization core of
`lib_django_exception` (files `handler.py` and `utils.py`).

Python values that flow through the handler (error-code trees, normalized
entries, detail structures) are shallowly embedded as the inductive `PyVal`
(dictionary keys can be strings or ints, as produced by nested serializers).
Fallible Python code is modelled with `Except PyErr`; an `Except.error`
result models a raised exception.  The Python `str()` of containers is
`repr`-based; its exact quoting is approximated by `pyRepr` (only the
string/int/None cases are ever relevant to the theorems below).
-/

/-- A Python dictionary key in an error-code tree: an attribute name or an
integer index coming from a list serializer. -/
inductive PKey where
  | s : String → PKey
  | i : Int → PKey
deriving DecidableEq

/-- Embedded Python values: `None`, strings, ints, lists and dicts.
Dicts are association lists in insertion order (keys unique by
construction, as in Python). -/
inductive PyVal where
  | none : PyVal
  | str : String → PyVal
  | int : Int → PyVal
  | list : List PyVal → PyVal
  | dict : List (PKey × PyVal) → PyVal

/-- Exceptions the modelled Python code can raise. -/
inductive PyErr where
  | keyError : PyErr
  | indexError : PyErr
  | typeError : PyErr
  | attributeError : PyErr
  | hookError : PyErr
deriving DecidableEq

/-- Python truthiness of an embedded value. -/
def pyTruthy : PyVal → Bool
  | PyVal.none => false
  | PyVal.str s => !(s = "")
  | PyVal.int n => !(n = 0)
  | PyVal.list l => !l.isEmpty
  | PyVal.dict kvs => !kvs.isEmpty

/-- Lookup in an embedded dict (keys are unique, first match). -/
def dictGet : List (PKey × PyVal) → PKey → Option PyVal
  | [], _ => Option.none
  | (k, v) :: rest, key => if k = key then Option.some v else dictGet rest key

/-- The apostrophe character, written by code point to keep source plain. -/
def quoteChar : Char := Char.ofNat 39

/-- Python `repr` of a dict key (string keys quoted, int keys bare). -/
def pkeyRepr : PKey → String
  | PKey.s s => String.singleton quoteChar ++ s ++ String.singleton quoteChar
  | PKey.i n => toString n

mutual

/-- Python `repr` of an embedded value (string quoting approximated with
single quotes; container `repr` is only reachable in corner cases that no
theorem below depends on). -/
def pyRepr : PyVal → String
  | PyVal.none => "None"
  | PyVal.str s => String.singleton quoteChar ++ s ++ String.singleton quoteChar
  | PyVal.int n => toString n
  | PyVal.list l => "[" ++ pyReprList l ++ "]"
  | PyVal.dict kvs => "\x7b" ++ pyReprDict kvs ++ "\x7d"

/-- Comma-separated `repr` of list elements. -/
def pyReprList : List PyVal → String
  | [] => ""
  | [v] => pyRepr v
  | v :: rest => pyRepr v ++ ", " ++ pyReprList rest

/-- Comma-separated `repr` of dict items. -/
def pyReprDict : List (PKey × PyVal) → String
  | [] => ""
  | [(k, v)] => pkeyRepr k ++ ": " ++ pyRepr v
  | (k, v) :: rest => pkeyRepr k ++ ": " ++ pyRepr v ++ ", " ++ pyReprDict rest

end

/-- Python `str()` of an embedded value (`str` of a string is itself,
containers and the rest fall back to `repr`). -/
def pyStr : PyVal → String
  | PyVal.str s => s
  | v => pyRepr v

/-- Is the value a Python dict? -/
def isDictB : PyVal → Bool
  | PyVal.dict _ => true
  | _ => false

/-- First dict element of a Python list, if any (the `for item in
exception_code: if isinstance(item, dict): ... break` loop in
`_normalize_exception_codes`). -/
def firstDict (l : List PyVal) : Option PyVal := l.find? isDictB

/-- The value `_normalize_exception_codes` actually descends into: a list is
replaced by its first dict element when one exists, every other value is
kept as is. -/
def pyEffective : PyVal → PyVal
  | PyVal.list l => (firstDict l).getD (PyVal.list l)
  | v => v

/-- A normalized entry `{"parsed_keys": keys, "exception_code": code}` as
built by `_normalize_exception_codes` (keys stored as Python values). -/
def keyToVal : PKey → PyVal
  | PKey.s s => PyVal.str s
  | PKey.i n => PyVal.int n

/-- The entry dict appended by `_normalize_exception_codes`. -/
def entryVal (keys : List PKey) (code : PyVal) : PyVal :=
  PyVal.dict [(PKey.s "parsed_keys", PyVal.list (keys.map keyToVal)),
              (PKey.s "exception_code", code)]

/-- Function `_normalize_exception_codes(exception_codes, parent_key)` from
`handler.py`: walks the items of a (possibly nested) code dict, replacing a
list value by its first dict element (`pyEffective`), recursing into dict
values and emitting a normalized entry for every other value.  (The Python
guard `len(exception_codes) >= 1` on the list special-case always holds
inside the loop and is therefore not represented; the `.copy()` on recursion
is a no-op in a pure setting.) -/
def _normalize_exception_codes : List (PKey × PyVal) → List PKey → List PyVal
  | [], _ => []
  | (key, code) :: rest, parent_key =>
    (match h : pyEffective code with
     | PyVal.dict kvs => _normalize_exception_codes kvs (parent_key ++ [key])
     | PyVal.none => [entryVal (parent_key ++ [key]) PyVal.none]
     | PyVal.str s => [entryVal (parent_key ++ [key]) (PyVal.str s)]
     | PyVal.int n => [entryVal (parent_key ++ [key]) (PyVal.int n)]
     | PyVal.list l => [entryVal (parent_key ++ [key]) (PyVal.list l)])
    ++ _normalize_exception_codes rest parent_key
termination_by l _ => sizeOf l
decreasing_by
  · have hlt : sizeOf kvs < sizeOf code := by
      cases code with
      | dict kvs0 =>
        simp only [pyEffective] at h
        cases h
        simp
      | list l =>
        simp only [pyEffective, firstDict] at h
        cases hf : l.find? isDictB with
        | none => rw [hf] at h; simp at h
        | some dd =>
          rw [hf] at h
          simp at h
          subst h
          have hmem : PyVal.dict kvs ∈ l := List.mem_of_find?_eq_some hf
          have hlt2 : sizeOf (PyVal.dict kvs) < sizeOf l := List.sizeOf_lt_of_mem hmem
          simp at hlt2
          simp
          omega
      | none => simp [pyEffective] at h
      | str s => simp [pyEffective] at h
      | int n => simp [pyEffective] at h
    simp
    omega
  · simp

/-- Specification-side description of the leaves of a code tree: the list, in
depth-first insertion order, of `(relative key path, leaf code)` pairs, where
a leaf is any value that is not (effectively) a mapping and the path length
is the nesting depth of that leaf. -/
def leafPaths : List (PKey × PyVal) → List (List PKey × PyVal)
  | [] => []
  | (key, code) :: rest =>
    (match h : pyEffective code with
     | PyVal.dict kvs => (leafPaths kvs).map (fun p => (key :: p.1, p.2))
     | PyVal.none => [([key], PyVal.none)]
     | PyVal.str s => [([key], PyVal.str s)]
     | PyVal.int n => [([key], PyVal.int n)]
     | PyVal.list l => [([key], PyVal.list l)])
    ++ leafPaths rest
termination_by l => sizeOf l
decreasing_by
  · have hlt : sizeOf kvs < sizeOf code := by
      cases code with
      | dict kvs0 =>
        simp only [pyEffective] at h
        cases h
        simp
      | list l =>
        simp only [pyEffective, firstDict] at h
        cases hf : l.find? isDictB with
        | none => rw [hf] at h; simp at h
        | some dd =>
          rw [hf] at h
          simp at h
          subst h
          have hmem : PyVal.dict kvs ∈ l := List.mem_of_find?_eq_some hf
          have hlt2 : sizeOf (PyVal.dict kvs) < sizeOf l := List.sizeOf_lt_of_mem hmem
          simp at hlt2
          simp
          omega
      | none => simp [pyEffective] at h
      | str s => simp [pyEffective] at h
      | int n => simp [pyEffective] at h
    simp
    omega
  · simp

/-- Python subscript `v[i]` as used by the handler: dict lookup (missing key
raises `KeyError`, unhashable key raises `TypeError`), list indexing with
Python negative-index semantics, string character indexing; everything else
raises `TypeError`. -/
def pyIndex (v : PyVal) (i : PyVal) : Except PyErr PyVal :=
  match v, i with
  | PyVal.dict kvs, PyVal.str s =>
    match dictGet kvs (PKey.s s) with
    | Option.some x => Except.ok x
    | Option.none => Except.error PyErr.keyError
  | PyVal.dict kvs, PyVal.int n =>
    match dictGet kvs (PKey.i n) with
    | Option.some x => Except.ok x
    | Option.none => Except.error PyErr.keyError
  | PyVal.dict _, PyVal.none => Except.error PyErr.keyError
  | PyVal.dict _, _ => Except.error PyErr.typeError
  | PyVal.list l, PyVal.int n =>
    let m : Int := if n < 0 then n + Int.ofNat l.length else n
    if m < 0 then Except.error PyErr.indexError
    else
      match l.get? m.toNat with
      | Option.some x => Except.ok x
      | Option.none => Except.error PyErr.indexError
  | PyVal.str s, PyVal.int n =>
    let m : Int := if n < 0 then n + Int.ofNat s.data.length else n
    if m < 0 then Except.error PyErr.indexError
    else
      match s.data.get? m.toNat with
      | Option.some c => Except.ok (PyVal.str (String.singleton c))
      | Option.none => Except.error PyErr.indexError
  | _, _ => Except.error PyErr.typeError

/-- Helper `override_or_return` from `_get_main_exception_and_code`: the special
remap of the generic validation code. -/
def override_or_return (code : String) : String :=
  if code = "invalid" then "invalid_input" else code

/-- Helper `override_or_return` applied to an arbitrary value, as on the dict
branch of `_get_main_exception_and_code` (a non-string compares unequal to
`"invalid"` and passes through unchanged). -/
def overrideVal : PyVal → PyVal
  | PyVal.str s => PyVal.str (override_or_return s)
  | v => v

/-- Function `_get_main_exception_and_code(exception_codes)` from `handler.py`.
Returns the pair `(code, key)`; the first component is the (possibly
remapped) code, the second is `codes["parsed_keys"]`, the first dict key, or
`None`.  `Except.error` models the subscript errors the Python code can
raise (`codes["exception_code"][0]` on an empty list, `codes[key][0]` on a
value that supports neither). -/
def _get_main_exception_and_code (exception_codes : PyVal) :
    Except PyErr (PyVal × PyVal) :=
  if pyTruthy exception_codes then
    match exception_codes with
    | PyVal.dict kvs =>
      if (dictGet kvs (PKey.s "parsed_keys")).isSome then
        match dictGet kvs (PKey.s "exception_code") with
        | Option.none => Except.error PyErr.keyError
        | Option.some (PyVal.list l) =>
          match pyIndex (PyVal.list l) (PyVal.int 0) with
          | Except.error e => Except.error e
          | Except.ok c =>
            Except.ok (PyVal.str (override_or_return (pyStr c)),
              (dictGet kvs (PKey.s "parsed_keys")).getD PyVal.none)
        | Option.some c =>
          Except.ok (PyVal.str (override_or_return (pyStr c)),
            (dictGet kvs (PKey.s "parsed_keys")).getD PyVal.none)
      else
        match kvs with
        | [] => Except.error PyErr.keyError
        | (key, v) :: _ =>
          match v with
          | PyVal.str s => Except.ok (PyVal.str (override_or_return s), keyToVal key)
          | _ =>
            match pyIndex v (PyVal.int 0) with
            | Except.error e => Except.error e
            | Except.ok code => Except.ok (overrideVal code, keyToVal key)
    | PyVal.str s => Except.ok (PyVal.str s, PyVal.none)
    | PyVal.list l =>
      match pyIndex (PyVal.list l) (PyVal.int 0) with
      | Except.error e => Except.error e
      | Except.ok c => Except.ok (PyVal.str (override_or_return (pyStr c)), PyVal.none)
    | _ => Except.ok (PyVal.str "error", PyVal.none)
  else Except.ok (PyVal.str "error", PyVal.none)

/-- The process-wide configuration read by the handler: the library settings
(`settings.py` defaults), the DRF non-field-errors key, and Django DEBUG. -/
structure Config where
  ENABLE_IN_DEBUG : Bool
  NESTED_KEY_SEPARATOR : String
  SUPPORT_MULTIPLE_EXCEPTIONS : Bool
  FARSI_EXCEPTION : Bool
  NON_FIELD_ERRORS_KEY : String
  DEBUG : Bool

/-- The defaults: `ENABLE_IN_DEBUG=False`, separator `"__"`,
`SUPPORT_MULTIPLE_EXCEPTIONS=False`, `FARSI_EXCEPTION=True`, DRF default
non-field key, `DEBUG=False`. -/
def defaultConfig : Config :=
  Config.mk false "__" false true "non_field_errors" false

/-- Inner `override_or_return` of `_get_attr` on a joined (string) key:
the two sentinel comparisons, then Python truthiness. -/
def attr_override_or_return (cfg : Config) (final_key : String) : PyVal :=
  if final_key = "__all__" then PyVal.none
  else if final_key = cfg.NON_FIELD_ERRORS_KEY then PyVal.none
  else if final_key = "" then PyVal.none
  else PyVal.str final_key

/-- Inner `override_or_return` of `_get_attr` on a non-list key value: a
non-string never equals the string sentinels and passes through the
truthiness check unchanged. -/
def attr_override_any (cfg : Config) (final_key : PyVal) : PyVal :=
  match final_key with
  | PyVal.str s => attr_override_or_return cfg s
  | v => if pyTruthy v then v else PyVal.none

/-- Are all values strings?  Mirrors the implicit requirement of
`str.join`, which raises `TypeError` on a non-string element. -/
def allStrings : List PyVal → Option (List String)
  | [] => Option.some []
  | PyVal.str s :: rest => (allStrings rest).map (fun t => s :: t)
  | _ :: _ => Option.none

/-- Function `_get_attr(exception_key)` from `handler.py`: a list key has its integer
segments stringified and is joined with the configured separator, then the
sentinel suppression runs on the joined string; other keys go straight to
the suppression check. -/
def _get_attr (cfg : Config) (exception_key : PyVal) : Except PyErr PyVal :=
  match exception_key with
  | PyVal.list items =>
    let cp := items.map (fun it =>
      match it with
      | PyVal.int n => PyVal.str (toString n)
      | it2 => it2)
    match allStrings cp with
    | Option.some strs =>
      Except.ok (attr_override_or_return cfg
        (String.intercalate cfg.NESTED_KEY_SEPARATOR strs))
    | Option.none => Except.error PyErr.typeError
  | k => Except.ok (attr_override_any cfg k)

/-- The two detail attributes a failure can carry. -/
inductive DField where
  | detail : DField
  | fa_detail : DField
deriving DecidableEq

/-- The Python attribute name of a detail field (the string used by
`value.get(exception_field, "")`). -/
def DField.fieldName : DField → String
  | DField.detail => "detail"
  | DField.fa_detail => "fa_detail"

/-- The classes of the fixed DRF lookup table in `_get_error_type`. -/
inductive DrfClass where
  | authenticationFailed : DrfClass
  | methodNotAllowed : DrfClass
  | notAcceptable : DrfClass
  | notAuthenticated : DrfClass
  | notFound : DrfClass
  | parseError : DrfClass
  | permissionDenied : DrfClass
  | throttled : DrfClass
  | unsupportedMediaType : DrfClass
  | validationError : DrfClass
  | customValidationError : DrfClass
deriving DecidableEq

/-- The failure object entering `exception_handler`, after the Django
base-exception conversion at the top of the function (`Http404`,
`PermissionDenied`, `ProtectedError`, `DjangoValidationError` are already
replaced there; this model starts from the converted object).  `Option.none`
on a field models the absence of that Python attribute. -/
structure Exc where
  exception_type : Option String
  default_type : Option String
  cls : Option DrfClass
  codes : Option PyVal
  detail : Option PyVal
  fa_detail : Option PyVal
  status_code : Option Nat
  isAPIException : Bool

/-- Python `getattr(exc, exception_field)` for the two detail fields. -/
def Exc.fieldGet (exc : Exc) : DField → Option PyVal
  | DField.detail => exc.detail
  | DField.fa_detail => exc.fa_detail

/-- Function `_get_error_type(exc)` (with the `@ensure_string` coercion of the
`ErrorTypes` enum members to their value strings). -/
def _get_error_type (exc : Exc) : String :=
  match exc.exception_type with
  | Option.some t => t
  | Option.none =>
    match exc.default_type with
    | Option.some t => t
    | Option.none =>
      match exc.cls with
      | Option.some DrfClass.authenticationFailed => "authentication_error"
      | Option.some DrfClass.methodNotAllowed => "invalid_request"
      | Option.some DrfClass.notAcceptable => "invalid_request"
      | Option.some DrfClass.notAuthenticated => "authentication_error"
      | Option.some DrfClass.notFound => "invalid_request"
      | Option.some DrfClass.parseError => "invalid_request"
      | Option.some DrfClass.permissionDenied => "authentication_error"
      | Option.some DrfClass.throttled => "throttled_error"
      | Option.some DrfClass.unsupportedMediaType => "invalid_request"
      | Option.some DrfClass.validationError => "validation_error"
      | Option.some DrfClass.customValidationError => "validation_error"
      | Option.none => "server_error"

/-- Function `_get_http_status(exc)`. -/
def _get_http_status (exc : Exc) : Nat := exc.status_code.getD 500

/-- The fixed default detail text. -/
def DEFAULT_ERROR_DETAIL : String := "A server error occurred."

/-- The `for key in exception_key: value = value[key]` walk of
`_get_detail`. -/
def walkPath (v : PyVal) : List PyVal → Except PyErr PyVal
  | [] => Except.ok v
  | k :: rest =>
    match pyIndex v k with
    | Except.error e => Except.error e
    | Except.ok v2 => walkPath v2 rest

/-- Function `_get_detail(exc, exception_key, exception_code, exception_field)` from
`handler.py` (the `exception_code` parameter is unused by the body, exactly
as in the source; the `@ensure_string` decorator function `force_str` is `pyStr`).
A string attribute is returned as is; a dict attribute is walked along the
key path (a string key is wrapped into a one-element list first, any other
non-list key skips the walk), then a dict lands in `value.get(field, "")`,
a string is returned, anything else is subscripted with `[0]`; a non-empty
list attribute yields its first element; everything else falls back to the
default detail text. -/
def _get_detail (exc : Exc) (exception_key : PyVal) (exception_code : PyVal)
    (f : DField) : Except PyErr String :=
  match exc.fieldGet f with
  | Option.none => Except.ok DEFAULT_ERROR_DETAIL
  | Option.some v =>
    match v with
    | PyVal.str s => Except.ok s
    | PyVal.dict kvs =>
      let keyPath : Option (List PyVal) :=
        match exception_key with
        | PyVal.str s => Option.some [PyVal.str s]
        | PyVal.list l => Option.some l
        | _ => Option.none
      match keyPath with
      | Option.none =>
        Except.ok (pyStr ((dictGet kvs (PKey.s f.fieldName)).getD (PyVal.str "")))
      | Option.some ks =>
        match walkPath (PyVal.dict kvs) ks with
        | Except.error e => Except.error e
        | Except.ok value =>
          match value with
          | PyVal.dict kvs2 =>
            Except.ok (pyStr ((dictGet kvs2 (PKey.s f.fieldName)).getD (PyVal.str "")))
          | PyVal.str s => Except.ok s
          | other =>
            match pyIndex other (PyVal.int 0) with
            | Except.error e => Except.error e
            | Except.ok x => Except.ok (pyStr x)
    | PyVal.list [] => Except.ok DEFAULT_ERROR_DETAIL
    | PyVal.list (x :: _) => Except.ok (pyStr x)
    | _ => Except.ok DEFAULT_ERROR_DETAIL

/-- Function `translate_text(text)` from `utils.py`, with the global active locale
made explicit.  `tr` is the `gettext` lookup under the secondary locale
`"fa"`; the function returns the lookup result paired with the active
locale after the call.  Note the source has no `try/finally`: when the
lookup raises, `activate(current_language)` is never reached. -/
def translate_text (tr : String → Except Unit String) (current_language : String)
    (text : String) : Except Unit String × String :=
  match tr text with
  | Except.ok data => (Except.ok data, current_language)
  | Except.error e => (Except.error e, "fa")

/-- Function `_get_farsi_detail(exc, exception_key, exception_code, detail)` from
`handler.py`, with a total translator `tr` (the handler-side view of
`translate_text`, whose locale bookkeeping is modelled separately). -/
def _get_farsi_detail (tr : String → String) (exc : Exc)
    (exception_key exception_code : PyVal) (detail : String) :
    Except PyErr String :=
  if (exc.fa_detail).isSome then
    _get_detail exc exception_key exception_code DField.fa_detail
  else if !(detail = "") then Except.ok (tr detail)
  else Except.ok detail

/-- Python `str.split(" ")` on the character list (single-character
separator, empty segments preserved). -/
def splitCharList (c : Char) : List Char → List (List Char)
  | [] => [[]]
  | x :: xs =>
    if x = c then [] :: splitCharList c xs
    else
      match splitCharList c xs with
      | [] => [[x]]
      | h :: t => (x :: h) :: t

/-- Python `s.split(" ")`. -/
def pySplitSpace (s : String) : List String :=
  (splitCharList (Char.ofNat 32) s.data).map (fun l => String.mk l)

/-- Python `needle in hay` on strings. -/
def pyIn (needle hay : String) : Bool :=
  decide (List.IsInfix needle.data hay.data)

/-- Python `is None`. -/
def PyVal.isNone : PyVal → Bool
  | PyVal.none => true
  | _ => false

/-- Python `s.split("__")` — the literal separator of `attr.split("__")`
in the Farsi branch of the handler — on the character list: non-overlapping,
left-to-right, empty segments preserved (95 is the underscore code
point). -/
def splitDunderChars : List Char → List (List Char)
  | [] => [[]]
  | [x] => [[x]]
  | x :: y :: rest =>
    if x = Char.ofNat 95 ∧ y = Char.ofNat 95 then [] :: splitDunderChars rest
    else
      match splitDunderChars (y :: rest) with
      | [] => [[x]]
      | h :: t => (x :: h) :: t

/-- Python `s.split("__")` on strings. -/
def pySplitDunder (s : String) : List String :=
  (splitDunderChars s.data).map (fun l => String.mk l)

/-- Lines 298–301 of `exception_handler`: derive `attr` via `_get_attr`,
then the unique-together recovery — when the attribute is `None` and the
resolved detail contains "must make a unique set", take the third
space-separated token of the detail with its last character stripped.
(The source calls `_get_attr` and `_get_detail` twice; both are pure, so
each is evaluated once here.) -/
def resolveAttr (cfg : Config) (exc : Exc) (exception_key : PyVal) :
    Except PyErr PyVal :=
  match _get_attr cfg exception_key with
  | Except.error e => Except.error e
  | Except.ok attr0 =>
    if attr0.isNone then
      match _get_detail exc exception_key PyVal.none DField.detail with
      | Except.error e => Except.error e
      | Except.ok d =>
        if pyIn "must make a unique set" d then
          match (pySplitSpace d)[2]? with
          | Option.some t => Except.ok (PyVal.str (t.dropRight 1))
          | Option.none => Except.error PyErr.indexError
        else Except.ok attr0
    else Except.ok attr0

/-- The error envelope assembled by `exception_handler`; the two `fa`
fields are `Option.some` exactly when `FARSI_EXCEPTION` is on. -/
structure Envelope where
  type : String
  code : PyVal
  detail : String
  attr : PyVal
  fa_attr : Option PyVal
  fa_details : Option String

/-- The result of the handler: the debug passthrough (`return None`) or a
response with an envelope and an HTTP status. -/
inductive HResp where
  | passthrough : HResp
  | response : Envelope → Nat → HResp

/-- Lines 281–290 of `exception_handler`: build the raw exception list —
normalize the codes of a DRF `ValidationError` (a bare list is kept whole),
otherwise a single `get_codes()` value, otherwise `[None]`.  Normalizing a
non-dict raises (`.items()` on it). -/
def buildExceptionList (exc : Exc) : Except PyErr (List PyVal) :=
  if exc.cls = Option.some DrfClass.validationError then
    match exc.codes.getD PyVal.none with
    | PyVal.list l => Except.ok [PyVal.list l]
    | PyVal.dict kvs => Except.ok (_normalize_exception_codes kvs [])
    | _ => Except.error PyErr.attributeError
  else
    match exc.codes with
    | Option.some c => Except.ok [c]
    | Option.none => Except.ok [PyVal.none]

/-- Lines 281–292: the exception list mapped through
`_get_main_exception_and_code`. -/
def mainsOf (exc : Exc) : Except PyErr (List (PyVal × PyVal)) :=
  match buildExceptionList exc with
  | Except.error e => Except.error e
  | Except.ok lst => lst.mapM _get_main_exception_and_code

/-- Function `exception_handler(exc, context)` from `handler.py`, starting from the
already-converted failure (see `Exc`).  `tr` is the total translator used
by the Farsi branch (`translate_text` under a non-raising lookup; its
locale bookkeeping is modelled by `translate_text` above), `hookRaises`
says whether the configured reporting hook raises when invoked.  The
returned `Nat` counts the reporting-hook invocations.  `set_rollback()` is
an external side effect with no data flow and is not represented. -/
def exception_handler (cfg : Config) (tr : String → String) (hookRaises : Bool)
    (exc : Exc) : Except PyErr HResp × Nat :=
  if cfg.DEBUG && !cfg.ENABLE_IN_DEBUG && !exc.isAPIException then
    (Except.ok HResp.passthrough, 0)
  else
    match mainsOf exc with
    | Except.error e => (Except.error e, 0)
    | Except.ok mains =>
      if hookRaises then (Except.error PyErr.hookError, 1)
      else
        match mains with
        | [] => (Except.error PyErr.indexError, 1)
        | (exception_code, exception_key) :: _ =>
          match resolveAttr cfg exc exception_key with
          | Except.error e => (Except.error e, 1)
          | Except.ok attr =>
            match _get_detail exc exception_key exception_code DField.detail with
            | Except.error e => (Except.error e, 1)
            | Except.ok detail =>
              if cfg.FARSI_EXCEPTION then
                match (if pyTruthy attr then
                        match attr with
                        | PyVal.str s =>
                          Except.ok (PyVal.str (tr ((pySplitDunder s).getLastD "")))
                        | _ => Except.error PyErr.attributeError
                       else Except.ok PyVal.none : Except PyErr PyVal) with
                | Except.error e => (Except.error e, 1)
                | Except.ok translated_attr =>
                  match _get_farsi_detail tr exc exception_key exception_code detail with
                  | Except.error e => (Except.error e, 1)
                  | Except.ok faDetails =>
                    (Except.ok (HResp.response
                      (Envelope.mk (_get_error_type exc) exception_code detail attr
                        (Option.some translated_attr) (Option.some faDetails))
                      (_get_http_status exc)), 1)
              else
                (Except.ok (HResp.response
                  (Envelope.mk (_get_error_type exc) exception_code detail attr
                    Option.none Option.none)
                  (_get_http_status exc)), 1)

/-- The Python `str()` of a dict key as used when joining `parsed_keys`
segments (`str(item)` for int items, the string itself otherwise). -/
def pkeyStr : PKey → String
  | PKey.s s => s
  | PKey.i n => toString n

/-- The joined attribute key: `parsed_keys` segments stringified and joined
with the configured separator. -/
def joinKeys (cfg : Config) (ks : List PKey) : String :=
  String.intercalate cfg.NESTED_KEY_SEPARATOR (ks.map pkeyStr)

/-- A failure with no `get_codes` accessor, no detail and no explicit type:
the degenerate default input of the pipeline. -/
def excNoCodes : Exc :=
  Exc.mk Option.none Option.none Option.none Option.none Option.none
    Option.none Option.none true

/-- A failure whose `get_codes()` returns a falsy value (`None`). -/
def excFalsyCodes : Exc :=
  Exc.mk Option.none Option.none Option.none (Option.some PyVal.none)
    Option.none Option.none Option.none true

/-- A DRF validation failure whose code tree is the empty mapping `{}`. -/
def excEmptyTree : Exc :=
  Exc.mk Option.none Option.none (Option.some DrfClass.validationError)
    (Option.some (PyVal.dict [])) Option.none Option.none Option.none true

/-- A DRF validation failure whose code tree is `{"a": []}` — a leaf whose
code value is an empty list. -/
def excEmptyLeafList : Exc :=
  Exc.mk Option.none Option.none (Option.some DrfClass.validationError)
    (Option.some (PyVal.dict [(PKey.s "a", PyVal.list [])]))
    Option.none Option.none Option.none true

/-- A failure with an undetermined attribute whose detail text contains the
unique-together phrase. -/
def excUniqueSet : Exc :=
  Exc.mk Option.none Option.none Option.none Option.none
    (Option.some (PyVal.str "must make a unique set")) Option.none
    Option.none true

/-- A plain failure with a single string code and a string detail. -/
def excSimple : Exc :=
  Exc.mk Option.none Option.none Option.none
    (Option.some (PyVal.str "required"))
    (Option.some (PyVal.str "Something went wrong.")) Option.none
    Option.none true

/-- A DRF validation failure whose code tree normalizes to two entries. -/
def excTwoEntries : Exc :=
  Exc.mk Option.none Option.none (Option.some DrfClass.validationError)
    (Option.some (PyVal.dict [(PKey.s "a", PyVal.str "required"),
                              (PKey.s "b", PyVal.str "min_length")]))
    Option.none Option.none Option.none true

theorem splitCharList_ne_nil (c : Char) (l : List Char) : splitCharList c l ≠ [] := by
  cases l with
  | nil => simp [splitCharList]
  | cons x xs =>
    rw [splitCharList]
    by_cases hx : x = c
    · simp [hx]
    · simp only [hx, if_false]
      cases splitCharList c xs with
      | nil => simp
      | cons h t => simp

theorem splitCharList_length (c : Char) :
    ∀ l : List Char, (splitCharList c l).length = l.count c + 1 := by
  intro l
  induction l with
  | nil => simp [splitCharList]
  | cons x xs ih =>
    rw [splitCharList]
    by_cases hx : x = c
    · subst hx
      simp [List.count_cons, ih]
    · simp only [hx, if_false]
      cases hs : splitCharList c xs with
      | nil => exact absurd hs (splitCharList_ne_nil c xs)
      | cons h t =>
        rw [hs] at ih
        simp only [List.length_cons] at ih ⊢
        rw [List.count_cons]
        simp [hx, ← ih]

theorem pyIn_unique_set_tokens {d : String}
    (h : pyIn "must make a unique set" d = true) :
    2 < (pySplitSpace d).length := by
  have hinf : List.IsInfix ("must make a unique set".data) d.data := by
    simpa [pyIn] using h
  have hcnt : ("must make a unique set".data.count (Char.ofNat 32))
      ≤ d.data.count (Char.ofNat 32) := hinf.sublist.count_le _
  have h4 : ("must make a unique set".data.count (Char.ofNat 32)) = 4 := by decide
  have hlen := splitCharList_length (Char.ofNat 32) d.data
  simp only [pySplitSpace, List.length_map]
  omega

theorem override_or_return_ne_invalid (s : String) :
    override_or_return s ≠ "invalid" := by
  unfold override_or_return
  by_cases hs : s = "invalid"
  · simp [hs]
  · simp [hs]

theorem attr_override_none_or_nonempty (cfg : Config) (s : String) :
    attr_override_or_return cfg s = PyVal.none
      ∨ ∃ t, ¬(t = "") ∧ attr_override_or_return cfg s = PyVal.str t := by
  unfold attr_override_or_return
  by_cases h1 : s = "__all__"
  · simp [h1]
  · by_cases h2 : s = cfg.NON_FIELD_ERRORS_KEY
    · simp [h1, h2]
    · by_cases h3 : s = ""
      · simp [h1, h2, h3]
      · exact Or.inr ⟨s, h3, by simp [h1, h2, h3]⟩

theorem allStrings_of_keys (ks : List PKey) :
    allStrings (List.map (fun it =>
        match it with
        | PyVal.int n => PyVal.str (toString n)
        | it2 => it2) (ks.map keyToVal))
      = Option.some (ks.map pkeyStr) := by
  induction ks with
  | nil => simp [allStrings]
  | cons k rest ih =>
    cases k with
    | s s0 =>
      simp only [List.map_cons, keyToVal]
      simp only [allStrings]
      rw [ih]
      simp [pkeyStr]
    | i n =>
      simp only [List.map_cons, keyToVal]
      simp only [allStrings]
      rw [ih]
      simp [pkeyStr]
/-- C1: for every nested mapping, `_normalize_exception_codes` emits, in
depth-first insertion order, exactly one entry per leaf (a non-mapping value
under a key is emitted as a leaf entry), each entry being
`{"parsed_keys": parentKeys ++ path, "exception_code": leaf}` where the
path length is the nesting depth of that leaf; in particular the number of
entries equals the number of leaves and `parsed_keys` has length
`parentKeys.length +` depth. -/
theorem norm_one_entry_per_leaf :
    ∀ (kvs : List (PKey × PyVal)) (pk : List PKey),
      _normalize_exception_codes kvs pk
        = (leafPaths kvs).map (fun p => entryVal (pk ++ p.1) p.2)
      ∧ (_normalize_exception_codes kvs pk).length = (leafPaths kvs).length := by
  have main : ∀ (kvs : List (PKey × PyVal)) (pk : List PKey),
      _normalize_exception_codes kvs pk
        = (leafPaths kvs).map (fun p => entryVal (pk ++ p.1) p.2) := by
    intro kvs pk
    induction kvs, pk using _normalize_exception_codes.induct with
    | case1 pk => simp [_normalize_exception_codes, leafPaths]
    | case2 key code rest parent_key ih1 ih2 =>
      rw [_normalize_exception_codes, leafPaths]
      cases h : pyEffective code with
      | dict kvs =>
        dsimp only
        rw [ih1 kvs h, ih2]
        simp only [List.map_append, List.map_map]
        congr 1
        apply List.map_congr_left
        intro p _
        simp [Function.comp, List.append_assoc]
      | none => dsimp only; rw [ih2]; simp
      | str s => dsimp only; rw [ih2]; simp
      | int n => dsimp only; rw [ih2]; simp
      | list l => dsimp only; rw [ih2]; simp
  intro kvs pk
  refine ⟨main kvs pk, ?_⟩
  rw [main kvs pk]
  simp

/-- C3 counterexample: a bare string code `"invalid"` is returned unchanged
by `_get_main_exception_and_code` — it is not remapped to
`"invalid_input"`, contradicting the claim that an "invalid" leaf code is
always rewritten. -/
theorem bare_invalid_not_remapped :
    _get_main_exception_and_code (PyVal.str "invalid")
        = Except.ok (PyVal.str "invalid", PyVal.none)
      ∧ ¬(PyVal.str "invalid" = PyVal.str "invalid_input") := by
  refine ⟨rfl, ?_⟩
  simp

/-- C3 (amended): the `"invalid" → "invalid_input"` remap applies on every
branch of `_get_main_exception_and_code` except the bare-string branch: a
bare string code (even `"invalid"`) is returned unchanged, every other
successful selection never returns the code `"invalid"`, and
`override_or_return` leaves every other code unchanged. -/
theorem invalid_remap_spec :
    (_get_main_exception_and_code (PyVal.str "invalid")
        = Except.ok (PyVal.str "invalid", PyVal.none))
    ∧ (∀ (v c k : PyVal), _get_main_exception_and_code v = Except.ok (c, k) →
        ¬(v = PyVal.str "invalid") → ¬(c = PyVal.str "invalid"))
    ∧ (∀ s : String, ¬(s = "invalid") → override_or_return s = s) := by
  refine ⟨rfl, ?_, ?_⟩
  · intro v c k h hv
    cases v with
    | none =>
      simp [_get_main_exception_and_code, pyTruthy] at h
      rcases h with ⟨rfl, rfl⟩
      simp
    | str s =>
      by_cases hs : s = ""
      · subst hs
        simp [_get_main_exception_and_code, pyTruthy] at h
        rcases h with ⟨rfl, rfl⟩
        simp
      · simp [_get_main_exception_and_code, pyTruthy, hs] at h
        rcases h with ⟨rfl, rfl⟩
        simpa using hv
    | int n =>
      by_cases hn : n = 0
      · subst hn
        simp [_get_main_exception_and_code, pyTruthy] at h
        rcases h with ⟨rfl, rfl⟩
        simp
      · simp [_get_main_exception_and_code, pyTruthy, hn] at h
        rcases h with ⟨rfl, rfl⟩
        simp
    | list l =>
      cases l with
      | nil =>
        simp [_get_main_exception_and_code, pyTruthy] at h
        rcases h with ⟨rfl, rfl⟩
        simp
      | cons x xs =>
        simp [_get_main_exception_and_code, pyTruthy, pyIndex] at h
        rcases h with ⟨rfl, rfl⟩
        simp [override_or_return_ne_invalid]
    | dict kvs =>
      cases kvs with
      | nil =>
        simp [_get_main_exception_and_code, pyTruthy] at h
        rcases h with ⟨rfl, rfl⟩
        simp
      | cons hd rest =>
        obtain ⟨k0, v0⟩ := hd
        cases hq : dictGet ((k0, v0) :: rest) (PKey.s "parsed_keys") with
        | some pv =>
          simp only [_get_main_exception_and_code, pyTruthy, hq] at h
          cases hec : dictGet ((k0, v0) :: rest) (PKey.s "exception_code") with
          | none => simp [hec] at h
          | some ec =>
            cases ec with
            | list l2 =>
              cases l2 with
              | nil => simp [hec, pyIndex] at h
              | cons y ys =>
                simp [hec, pyIndex] at h
                rcases h with ⟨rfl, rfl⟩
                simp [override_or_return_ne_invalid]
            | none =>
              simp [hec] at h
              rcases h with ⟨rfl, rfl⟩
              simp [override_or_return_ne_invalid]
            | str s2 =>
              simp [hec] at h
              rcases h with ⟨rfl, rfl⟩
              simp [override_or_return_ne_invalid]
            | int n2 =>
              simp [hec] at h
              rcases h with ⟨rfl, rfl⟩
              simp [override_or_return_ne_invalid]
            | dict d2 =>
              simp [hec] at h
              rcases h with ⟨rfl, rfl⟩
              simp [override_or_return_ne_invalid]
        | none =>
          simp only [_get_main_exception_and_code, pyTruthy, hq] at h
          cases v0 with
          | str s0 =>
            simp at h
            rcases h with ⟨rfl, rfl⟩
            simp [override_or_return_ne_invalid]
          | none => simp [pyIndex] at h
          | int n0 => simp [pyIndex] at h
          | list l0 =>
            cases l0 with
            | nil => simp [pyIndex] at h
            | cons y ys =>
              simp [pyIndex] at h
              rcases h with ⟨rfl, rfl⟩
              cases y with
              | str t =>
                simp [overrideVal, override_or_return_ne_invalid]
              | none => simp [overrideVal]
              | int m => simp [overrideVal]
              | list w => simp [overrideVal]
              | dict w => simp [overrideVal]
          | dict d0 =>
            cases hd0 : dictGet d0 (PKey.i 0) with
            | none => simp [pyIndex, hd0] at h
            | some y =>
              simp [pyIndex, hd0] at h
              rcases h with ⟨rfl, rfl⟩
              cases y with
              | str t =>
                simp [overrideVal, override_or_return_ne_invalid]
              | none => simp [overrideVal]
              | int m => simp [overrideVal]
              | list w => simp [overrideVal]
              | dict w => simp [overrideVal]
  · intro s hs
    simp [override_or_return, hs]

/-- C3 witness: a bare non-"invalid" string code passes through and
`override_or_return` leaves it unchanged. -/
theorem invalid_remap_spec_w :
    (_get_main_exception_and_code (PyVal.str "required")
        = Except.ok (PyVal.str "required", PyVal.none))
    ∧ ¬((PyVal.str "required" : PyVal) = PyVal.str "invalid")
    ∧ override_or_return "required" = "required" := by
  refine ⟨rfl, invalid_remap_spec.2.1 (PyVal.str "required") (PyVal.str "required")
    PyVal.none rfl (by simp), invalid_remap_spec.2.2 "required" (by simp)⟩

/-- C4 counterexample: `parsed_keys` *ending* in the whole-object sentinel
`"__all__"` is not suppressed — `["x", "__all__"]` joins to
`"x____all__"`, which equals neither sentinel, so the attribute passes
through non-null, contradicting the claim that keys ending in the sentinel
always yield a null attribute. -/
theorem attr_sentinel_suffix_not_suppressed :
    _get_attr defaultConfig (PyVal.list [PyVal.str "x", PyVal.str "__all__"])
        = Except.ok (PyVal.str "x____all__")
      ∧ ¬(PyVal.str "x____all__" = PyVal.none) := by
  refine ⟨rfl, ?_⟩
  simp

/-- C4 (amended): on a list key, `_get_attr` stringifies integer segments,
joins with the configured separator, and suppresses the result to null
exactly when the *joined* string equals `"__all__"`, the configured
non-field-errors key, or is empty (`attr_override_or_return`); in
particular the joined key `"__all__"` itself and the non-field key are
always suppressed. -/
theorem attr_join_spec :
    (∀ (cfg : Config) (ks : List PKey),
      _get_attr cfg (PyVal.list (ks.map keyToVal))
        = Except.ok (attr_override_or_return cfg (joinKeys cfg ks)))
    ∧ (∀ cfg : Config, attr_override_or_return cfg "__all__" = PyVal.none
        ∧ attr_override_or_return cfg cfg.NON_FIELD_ERRORS_KEY = PyVal.none) := by
  constructor
  · intro cfg ks
    simp only [_get_attr]
    rw [allStrings_of_keys ks]
    rfl
  · intro cfg
    constructor
    · simp [attr_override_or_return]
    · unfold attr_override_or_return
      by_cases h1 : cfg.NON_FIELD_ERRORS_KEY = "__all__"
      · simp [h1]
      · simp [h1]

/-- C9 counterexample: when the translation lookup raises, `translate_text`
leaves the active locale switched to `"fa"` — the prior locale `"en"` is
not restored, contradicting the claim that the locale is always restored,
including on error. -/
theorem locale_leak_on_lookup_error :
    translate_text (fun _ => Except.error ()) "en" "hello"
        = (Except.error (), "fa")
      ∧ ¬(("fa" : String) = "en") := by
  refine ⟨rfl, ?_⟩
  decide

/-- C9 (amended): `translate_text` restores the prior active locale
whenever the underlying lookup returns normally; when the lookup raises,
the function propagates the error with the active locale left at the
secondary language `"fa"`. -/
theorem locale_restored_on_success :
    ∀ (tr : String → Except Unit String) (current text data : String),
      tr text = Except.ok data →
      translate_text tr current text = (Except.ok data, current) := by
  intro tr current text data h
  simp [translate_text, h]

/-- C9 witness: a successful lookup at a concrete input restores the
locale. -/
theorem locale_restored_on_success_w :
    translate_text (fun t => Except.ok t) "en" "hello"
      = (Except.ok "hello", "en") :=
  locale_restored_on_success (fun t => Except.ok t) "en" "hello" "hello" rfl

/-- C10 counterexample: an envelope whose `attr` is the empty string — for
a failure with no codes and detail `"must make a unique set"`, attribute
derivation yields null, the unique-together recovery fires, its third token
is `"a"` and stripping the trailing character leaves `""`, which lands in
the envelope; so envelope `attr` is neither null nor a non-empty string. -/
theorem recovery_empty_attr_envelope :
    exception_handler defaultConfig (fun s => s) false excUniqueSet
        = (Except.ok (HResp.response
            (Envelope.mk "server_error" (PyVal.str "error")
              "must make a unique set" (PyVal.str "")
              (Option.some PyVal.none)
              (Option.some "must make a unique set")) 500), 1)
      ∧ ¬(PyVal.str "" = PyVal.none) := by
  refine ⟨rfl, ?_⟩
  simp

/-- C10 (amended): `_get_attr` itself never returns the empty string — for
every key of the declared input shapes (`None`, a string, or a list of
string/int segments) the result is null or a non-empty string (an empty
`parsed_keys` list and an empty-string key both map to null); the empty
string seen in an envelope `attr` can only come from the unique-together
recovery, not from attribute derivation. -/
theorem getattr_null_or_nonempty :
    ∀ (cfg : Config) (k : PyVal),
      (k = PyVal.none ∨ (∃ s, k = PyVal.str s) ∨
        (∃ items, k = PyVal.list items ∧
          ∀ it ∈ items, (∃ s, it = PyVal.str s) ∨ (∃ n, it = PyVal.int n))) →
      _get_attr cfg k = Except.ok PyVal.none
        ∨ ∃ s, ¬(s = "") ∧ _get_attr cfg k = Except.ok (PyVal.str s) := by
  intro cfg k hk
  rcases hk with rfl | ⟨s, rfl⟩ | ⟨items, rfl, hit⟩
  · exact Or.inl rfl
  · have := attr_override_none_or_nonempty cfg s
    rcases this with h | ⟨t, ht, h⟩
    · exact Or.inl (by simp [_get_attr, attr_override_any, h])
    · exact Or.inr ⟨t, ht, by simp [_get_attr, attr_override_any, h]⟩
  · have hall : ∃ strs, allStrings (List.map (fun it =>
        match it with
        | PyVal.int n => PyVal.str (toString n)
        | it2 => it2) items) = Option.some strs := by
      induction items with
      | nil => exact ⟨[], rfl⟩
      | cons x rest ih =>
        have hx := hit x (by simp)
        have hrest : ∀ it ∈ rest, (∃ s, it = PyVal.str s) ∨ (∃ n, it = PyVal.int n) := by
          intro it hmem
          exact hit it (by simp [hmem])
        obtain ⟨strs, hs⟩ := ih hrest
        rcases hx with ⟨s, rfl⟩ | ⟨n, rfl⟩
        · exact ⟨s :: strs, by simp [allStrings, hs]⟩
        · exact ⟨toString n :: strs, by simp [allStrings, hs]⟩
    obtain ⟨strs, hs⟩ := hall
    have hres := attr_override_none_or_nonempty cfg
      (String.intercalate cfg.NESTED_KEY_SEPARATOR strs)
    rcases hres with h | ⟨t, ht, h⟩
    · exact Or.inl (by simp [_get_attr, hs, h])
    · exact Or.inr ⟨t, ht, by simp [_get_attr, hs, h]⟩

/-- C10 witness: the empty `parsed_keys` list joins to the empty string and
is mapped to null. -/
theorem getattr_null_or_nonempty_w :
    _get_attr defaultConfig (PyVal.list []) = Except.ok PyVal.none
      ∨ ∃ s, ¬(s = "") ∧ _get_attr defaultConfig (PyVal.list [])
          = Except.ok (PyVal.str s) :=
  getattr_null_or_nonempty defaultConfig (PyVal.list [])
    (Or.inr (Or.inr ⟨[], rfl, by simp⟩))

theorem handler_cases_snd (cfg : Config) (tr : String → String) (hf : Bool)
    (exc : Exc) :
    (exception_handler cfg tr hf exc).2 = 1
      ∨ ((exception_handler cfg tr hf exc).2 = 0
          ∧ ((exception_handler cfg tr hf exc).1 = Except.ok HResp.passthrough
             ∨ ∃ e, (exception_handler cfg tr hf exc).1 = Except.error e)) := by
  unfold exception_handler
  split
  · exact Or.inr ⟨rfl, Or.inl rfl⟩
  · split
    · exact Or.inr ⟨rfl, Or.inr ⟨_, rfl⟩⟩
    · split
      · exact Or.inl rfl
      · split
        · exact Or.inl rfl
        · split
          · exact Or.inl rfl
          · split
            · exact Or.inl rfl
            · split
              · split
                · exact Or.inl rfl
                · split
                  · exact Or.inl rfl
                  · exact Or.inl rfl
              · exact Or.inl rfl

theorem handler_hook_true (cfg : Config) (tr : String → String) (exc : Exc) :
    (exception_handler cfg tr true exc).1 = Except.ok HResp.passthrough
      ∨ ∃ e, (exception_handler cfg tr true exc).1 = Except.error e := by
  unfold exception_handler
  split
  · exact Or.inl rfl
  · split
    · exact Or.inr ⟨_, rfl⟩
    · exact Or.inr ⟨_, rfl⟩

theorem handler_success_mains (cfg : Config) (tr : String → String) (hf : Bool)
    (exc : Exc) (env : Envelope) (st : Nat)
    (h : (exception_handler cfg tr hf exc).1 = Except.ok (HResp.response env st)) :
    ∃ (key : PyVal) (rest : List (PyVal × PyVal)),
      mainsOf exc = Except.ok ((env.code, key) :: rest) := by
  unfold exception_handler at h
  split at h
  · simp at h
  · split at h
    · simp at h
    · rename_i mains hm
      split at h
      · simp at h
      · split at h
        · simp at h
        · rename_i c0 k0 tail
          split at h
          · simp at h
          · rename_i attr hra
            split at h
            · simp at h
            · rename_i detail hgd
              split at h
              · split at h
                · simp at h
                · rename_i ta hta
                  split at h
                  · simp at h
                  · rename_i fd hfd
                    simp only [Except.ok.injEq, HResp.response.injEq] at h
                    obtain ⟨henv, hst⟩ := h
                    subst henv
                    exact ⟨k0, tail, hm⟩
              · simp only [Except.ok.injEq, HResp.response.injEq] at h
                obtain ⟨henv, hst⟩ := h
                subst henv
                exact ⟨k0, tail, hm⟩

/-- C2 counterexample: the resolver can raise on a malformed code
structure — a validation failure with code tree `{"a": []}` normalizes to
an entry whose `exception_code` is an empty list, and
`codes["exception_code"][0]` in `_get_main_exception_and_code` raises
`IndexError`, so no envelope is produced (and the reporting hook is never
reached), contradicting the claim that the pipeline never raises for
malformed structures. -/
theorem handler_raises_on_empty_code_list :
    exception_handler defaultConfig (fun s => s) false excEmptyLeafList
      = (Except.error PyErr.indexError, 0) := by
  have hnorm : _normalize_exception_codes [(PKey.s "a", PyVal.list [])] []
      = [entryVal [PKey.s "a"] (PyVal.list [])] := by
    rw [_normalize_exception_codes]
    rw [_normalize_exception_codes]
    simp [pyEffective, firstDict]
  have h : mainsOf excEmptyLeafList = Except.error PyErr.indexError := by
    simp [mainsOf, buildExceptionList, excEmptyLeafList, hnorm]
    rfl
  unfold exception_handler
  rw [h]
  rfl

/-- C2 (amended): for *absent* data the pipeline indeed degrades and never
raises — a failure with no code accessor, not a validation failure, and no
detail attribute always yields an envelope whose code is the degenerate
default `"error"`, whose detail is the fixed default text, and whose attr
is null; but certain malformed structures (an empty list as a leaf code
value, see the counterexample) raise instead of degrading. -/
theorem handler_defaults_on_absent_data :
    ∀ (tr : String → String) (t1 t2 : Option String) (fa : Option PyVal)
      (stc : Option Nat) (api : Bool),
      ∃ (env : Envelope) (st : Nat),
        (exception_handler defaultConfig tr false
            (Exc.mk t1 t2 Option.none Option.none Option.none fa stc api)).1
          = Except.ok (HResp.response env st)
        ∧ env.code = PyVal.str "error"
        ∧ env.detail = DEFAULT_ERROR_DETAIL
        ∧ env.attr = PyVal.none := by
  intro tr t1 t2 fa stc api
  cases fa with
  | none => exact ⟨_, _, rfl, rfl, rfl, rfl⟩
  | some v =>
    cases v with
    | none => exact ⟨_, _, rfl, rfl, rfl, rfl⟩
    | str s => exact ⟨_, _, rfl, rfl, rfl, rfl⟩
    | int n => exact ⟨_, _, rfl, rfl, rfl, rfl⟩
    | dict kvs => exact ⟨_, _, rfl, rfl, rfl, rfl⟩
    | list l =>
      cases l with
      | nil => exact ⟨_, _, rfl, rfl, rfl, rfl⟩
      | cons x xs => exact ⟨_, _, rfl, rfl, rfl, rfl⟩

/-- C5: the primary error is always the first entry of the normalized
sequence, and the behaviour of the handler does not depend on the
`SUPPORT_MULTIPLE_EXCEPTIONS` configuration value (which is never read):
two configurations differing only in that flag produce identical results,
and every produced envelope carries the code of the head of `mainsOf`. -/
theorem first_entry_primary :
    (∀ (e : Bool) (n : String) (b1 b2 : Bool) (f : Bool) (nf : String)
        (d : Bool) (tr : String → String) (hf : Bool) (exc : Exc),
      exception_handler (Config.mk e n b1 f nf d) tr hf exc
        = exception_handler (Config.mk e n b2 f nf d) tr hf exc)
    ∧ (∀ (cfg : Config) (tr : String → String) (hf : Bool) (exc : Exc)
        (env : Envelope) (st : Nat),
      (exception_handler cfg tr hf exc).1 = Except.ok (HResp.response env st) →
      ∃ (key : PyVal) (rest : List (PyVal × PyVal)),
        mainsOf exc = Except.ok ((env.code, key) :: rest)) := by
  constructor
  · intro e n b1 b2 f nf d tr hf exc
    rfl
  · intro cfg tr hf exc env st h
    exact handler_success_mains cfg tr hf exc env st h

/-- C5 witness: a validation failure normalizing to two entries produces an
envelope whose code is the code of the first normalized entry. -/
theorem first_entry_primary_w :
    ∃ (key : PyVal) (rest : List (PyVal × PyVal)),
      mainsOf excTwoEntries
        = Except.ok (((Envelope.mk "validation_error" (PyVal.str "required")
            DEFAULT_ERROR_DETAIL (PyVal.str "a") (Option.some (PyVal.str "a"))
            (Option.some DEFAULT_ERROR_DETAIL)).code, key) :: rest) := by
  have hnorm : _normalize_exception_codes
      [(PKey.s "a", PyVal.str "required"), (PKey.s "b", PyVal.str "min_length")] []
      = [entryVal [PKey.s "a"] (PyVal.str "required"),
         entryVal [PKey.s "b"] (PyVal.str "min_length")] := by
    rw [_normalize_exception_codes]
    rw [_normalize_exception_codes]
    rw [_normalize_exception_codes]
    simp [pyEffective]
  have hm : mainsOf excTwoEntries
      = Except.ok [(PyVal.str "required", PyVal.list [PyVal.str "a"]),
                   (PyVal.str "min_length", PyVal.list [PyVal.str "b"])] := by
    simp [mainsOf, buildExceptionList, excTwoEntries, hnorm]
    rfl
  refine first_entry_primary.2 defaultConfig (fun s => s) false excTwoEntries
    (Envelope.mk "validation_error" (PyVal.str "required") DEFAULT_ERROR_DETAIL
      (PyVal.str "a") (Option.some (PyVal.str "a"))
      (Option.some DEFAULT_ERROR_DETAIL)) 500 ?_
  unfold exception_handler
  rw [hm]
  rfl

/-- C6: the unique-together recovery (lines 298–301 of the handler,
`resolveAttr` here, which `exception_handler` invokes): whenever attribute
derivation yields null and the resolved detail contains the phrase
"must make a unique set", the attribute becomes the third space-separated
token of the detail with one trailing character stripped (the token always
exists: the phrase itself contains four spaces); when the phrase is absent
or the derived attribute is non-null, the recovery leaves it unchanged. -/
theorem unique_set_recovery :
    ∀ (cfg : Config) (exc : Exc) (key a0 : PyVal),
      _get_attr cfg key = Except.ok a0 →
      ∀ d : String, _get_detail exc key PyVal.none DField.detail = Except.ok d →
        ((a0 = PyVal.none ∧ pyIn "must make a unique set" d = true →
          ∃ t : String, (pySplitSpace d)[2]? = Option.some t ∧
            resolveAttr cfg exc key = Except.ok (PyVal.str (t.dropRight 1)))
         ∧ ((¬(a0 = PyVal.none) ∨ pyIn "must make a unique set" d = false) →
            resolveAttr cfg exc key = Except.ok a0)) := by
  intro cfg exc key a0 ha d hd
  constructor
  · rintro ⟨rfl, hin⟩
    have hlen : 2 < (pySplitSpace d).length := pyIn_unique_set_tokens hin
    have hget : (pySplitSpace d)[2]? = Option.some ((pySplitSpace d).get ⟨2, hlen⟩) := by
      rw [List.getElem?_eq_getElem hlen]
      simp
    refine ⟨(pySplitSpace d).get ⟨2, hlen⟩, hget, ?_⟩
    simp only [resolveAttr, ha, PyVal.isNone, hd, hin, if_true]
    rw [hget]
  · intro hor
    rcases hor with hne | hfalse
    · have h0 : a0.isNone = false := by
        cases a0 <;> simp_all [PyVal.isNone]
      simp [resolveAttr, ha, h0]
    · by_cases h0 : a0 = PyVal.none
      · subst h0
        simp [resolveAttr, ha, PyVal.isNone, hd, hfalse]
      · have h1 : a0.isNone = false := by
          cases a0 <;> simp_all [PyVal.isNone]
        simp [resolveAttr, ha, h1]

/-- C6 witness: detail `"must make a unique set"` with a null attribute —
the third token is `"a"`, stripping the trailing character gives `""`. -/
theorem unique_set_recovery_w :
    ∃ t : String,
      (pySplitSpace "must make a unique set")[2]? = Option.some t
        ∧ resolveAttr defaultConfig excUniqueSet PyVal.none
            = Except.ok (PyVal.str (t.dropRight 1)) :=
  (unique_set_recovery defaultConfig excUniqueSet PyVal.none PyVal.none rfl
    "must make a unique set" rfl).1 ⟨rfl, by decide⟩

/-- C7 counterexample: an *empty mapping* code tree does not degrade to the
default entry — a validation failure with codes `{}` normalizes to an empty
entry list and `exception_list[0]` raises `IndexError`, so no envelope is
produced, contradicting the claim that every empty or falsy code tree
yields the degenerate default entry. -/
theorem handler_raises_on_empty_mapping :
    exception_handler defaultConfig (fun s => s) false excEmptyTree
      = (Except.error PyErr.indexError, 1) := by
  have hnorm : _normalize_exception_codes [] [] = ([] : List PyVal) := by
    rw [_normalize_exception_codes]
  have h : mainsOf excEmptyTree = Except.ok [] := by
    simp [mainsOf, buildExceptionList, excEmptyTree, hnorm]
    rfl
  unfold exception_handler
  rw [h]
  rfl

/-- C7 (amended): a failure with no code accessor at all, or with a falsy
non-mapping `get_codes()` value (`None`), degrades to the default entry
`("error", no key)` and, with no detail either, yields exactly the envelope
`{type: "server_error", code: "error", detail: "A server error occurred.",
attr: null}` (plus the Farsi fields under the default configuration); an
empty *mapping* tree instead raises (see the counterexample). -/
theorem default_envelope_on_absent_codes :
    ∀ tr : String → String,
      exception_handler defaultConfig tr false excNoCodes
        = (Except.ok (HResp.response
            (Envelope.mk "server_error" (PyVal.str "error") DEFAULT_ERROR_DETAIL
              PyVal.none (Option.some PyVal.none)
              (Option.some (tr DEFAULT_ERROR_DETAIL))) 500), 1)
      ∧ exception_handler defaultConfig tr false excFalsyCodes
        = (Except.ok (HResp.response
            (Envelope.mk "server_error" (PyVal.str "error") DEFAULT_ERROR_DETAIL
              PyVal.none (Option.some PyVal.none)
              (Option.some (tr DEFAULT_ERROR_DETAIL))) 500), 1) :=
  fun tr => ⟨rfl, rfl⟩

/-- C8 counterexample: a raising reporting hook *does* block envelope
construction — the hook is invoked (count 1) and its exception propagates,
so no envelope is assembled, contradicting the claim that a hook failure
does not prevent envelope construction. -/
theorem hook_error_blocks_envelope :
    exception_handler defaultConfig (fun s => s) true excSimple
      = (Except.error PyErr.hookError, 1) := rfl

/-- C8 (amended): the reporting hook is invoked exactly once for every
failure that yields an envelope; but when the hook raises, the handler
never yields an envelope — the exception of the hook propagates instead of
being isolated from envelope construction. -/
theorem hook_called_once :
    (∀ (cfg : Config) (tr : String → String) (hf : Bool) (exc : Exc)
        (env : Envelope) (st : Nat),
      (exception_handler cfg tr hf exc).1 = Except.ok (HResp.response env st) →
      (exception_handler cfg tr hf exc).2 = 1)
    ∧ (∀ (cfg : Config) (tr : String → String) (exc : Exc)
        (env : Envelope) (st : Nat),
      ¬((exception_handler cfg tr true exc).1
          = Except.ok (HResp.response env st))) := by
  constructor
  · intro cfg tr hf exc env st h
    rcases handler_cases_snd cfg tr hf exc with h1 | ⟨h1, h2 | ⟨e, h2⟩⟩
    · exact h1
    · rw [h2] at h
      simp at h
    · rw [h2] at h
      simp at h
  · intro cfg tr exc env st h
    rcases handler_hook_true cfg tr exc with h2 | ⟨e, h2⟩
    · rw [h2] at h
      simp at h
    · rw [h2] at h
      simp at h

/-- C8 witness: a concrete successful run has hook count exactly one. -/
theorem hook_called_once_w :
    (exception_handler defaultConfig (fun s => s) false excSimple).1
        = Except.ok (HResp.response
            (Envelope.mk "server_error" (PyVal.str "required")
              "Something went wrong." PyVal.none (Option.some PyVal.none)
              (Option.some "Something went wrong.")) 500)
      ∧ (exception_handler defaultConfig (fun s => s) false excSimple).2 = 1 :=
  ⟨rfl, hook_called_once.1 defaultConfig (fun s => s) false excSimple
    (Envelope.mk "server_error" (PyVal.str "required") "Something went wrong."
      PyVal.none (Option.some PyVal.none) (Option.some "Something went wrong."))
    500 rfl⟩
